import Mathlib

/-!
# KoMo2 board communication layer (`kmdSrc`)

A shallow embedding of the data model declared in
`src/kmdSrc/jimulatorInterface.h`, of the key handler in
`src/kmdSrc/models/TerminalModel.cpp` and of the row containers declared in
`src/kmdSrc/views/DisassemblyView.h`, followed by the properties established
for them.

Bytes (`unsigned char`) and words (`unsigned int`, `uint32_t`) are natural
numbers; an array of bytes is a list of natural numbers.  Functions of
`jimulatorInterface.h` whose bodies live in `jimulatorInterface.cpp` are
modelled from the specification, and say so in their doc comment.
-/

namespace KoMo2

/-! ## Constants of `jimulatorInterface.h` -/

/-- The width of Jimulators internal address bus
(`constexpr int ADDRESS_BUS_WIDTH = 4`). -/
def ADDRESS_BUS_WIDTH : Nat := 4

/-- The maximum number of breakpoints within the application
(`constexpr int MAX_NUMBER_OF_BREAKPOINTS = 32`). -/
def MAX_NUMBER_OF_BREAKPOINTS : Nat := 32

/-! ## `ClientState` -/

/-- State information returned from Jimulator
(`enum class ClientState : unsigned char`). -/
inductive ClientState where
  | NORMAL
  | BUSY
  | BREAKPOINT
  | MEMFAULT
  | FINISHED
  | RUNNING
  | RUNNING_SWI
  | STEPPING
  | BROKEN
  deriving DecidableEq, Repr

namespace ClientState

/-- The enumerator values of `ClientState`, i.e. `static_cast<unsigned char>`. -/
def toByte : ClientState → Nat
  | NORMAL => 0x00
  | BUSY => 0x01
  | BREAKPOINT => 0x41
  | MEMFAULT => 0x43
  | FINISHED => 0x44
  | RUNNING => 0x80
  | RUNNING_SWI => 0x81
  | STEPPING => 0x82
  | BROKEN => 0x30

/-- The nine enumerators, in declaration order. -/
def all : List ClientState :=
  [NORMAL, BUSY, BREAKPOINT, MEMFAULT, FINISHED, RUNNING, RUNNING_SWI, STEPPING, BROKEN]

end ClientState

/-! ## Error kinds -/

/-- Modelled from the spec: the channel error kinds of section 7,
`ChannelError{Closed, Timeout, ShortRead}`. -/
inductive ChannelError where
  | Closed
  | Timeout
  | ShortRead
  deriving DecidableEq, Repr

/-- Modelled from the spec: the decode error kinds of section 7,
`DecodeError{UnexpectedLength, UnknownOpcode}`. -/
inductive DecodeError where
  | UnexpectedLength
  | UnknownOpcode
  deriving DecidableEq, Repr

/-- Modelled from the spec: the typed failure a board operation surfaces to its
caller, a channel error or a decode error (section 7). -/
inductive BoardError where
  | channel (e : ChannelError)
  | decode (e : DecodeError)
  deriving DecidableEq, Repr

/-- Modelled from the spec: the conversion from a wire byte to a `ClientState`,
whose code (the body of `Jimulator::checkBoardState`) is in
`jimulatorInterface.cpp`.  Section 9 asks for an explicit, exhaustive
conversion with no silent default case and section 8 makes an unrecognised
byte a decode error; of the two decode error kinds `UnknownOpcode` is the one
for a byte of the right length and an unknown value. -/
def ClientState.decode (b : Nat) : Except DecodeError ClientState :=
  if b = 0x00 then .ok .NORMAL
  else if b = 0x01 then .ok .BUSY
  else if b = 0x41 then .ok .BREAKPOINT
  else if b = 0x43 then .ok .MEMFAULT
  else if b = 0x44 then .ok .FINISHED
  else if b = 0x80 then .ok .RUNNING
  else if b = 0x81 then .ok .RUNNING_SWI
  else if b = 0x82 then .ok .STEPPING
  else if b = 0x30 then .ok .BROKEN
  else .error .UnknownOpcode

/-- Modelled from the spec: `Jimulator::checkBoardState`, declared in
`jimulatorInterface.h` with its body in `jimulatorInterface.cpp`.  Section 4.3:
issue `WotUDo` and decode the 1-byte reply as a `ClientState`; a failure to
get a reply is surfaced as the channel's error and is no `ClientState`.
`reply` is what reading one byte from the board channel gave. -/
def checkBoardState (reply : Except ChannelError Nat) : Except BoardError ClientState :=
  match reply with
  | .error e => .error (.channel e)
  | .ok b =>
    match ClientState.decode b with
    | .ok s => .ok s
    | .error e => .error (.decode e)

/-! ## `BoardInstruction` -/

/-- The codes used as board instructions
(`enum class BoardInstruction : unsigned char`). -/
inductive BoardInstruction where
  | START
  | WOT_U_DO
  | STOP
  | CONTINUE
  | RESET
  | FR_WRITE
  | FR_READ
  | BP_WRITE
  | BP_READ
  | BP_SET
  | BP_GET
  | GET_REG
  | SET_REG
  | GET_MEM
  | SET_MEM
  deriving DecidableEq, Repr

namespace BoardInstruction

/-- The enumerator values of `BoardInstruction`: the opcode byte written on the
wire, `static_cast<unsigned char>`. -/
def encode : BoardInstruction → Nat
  | START => 0xB0
  | WOT_U_DO => 0x20
  | STOP => 0x21
  | CONTINUE => 0x23
  | RESET => 0x04
  | FR_WRITE => 0x12
  | FR_READ => 0x13
  | BP_WRITE => 0x30
  | BP_READ => 0x31
  | BP_SET => 0x32
  | BP_GET => 0x33
  | GET_REG => 0x5A
  | SET_REG => 0x52
  | GET_MEM => 0x4A
  | SET_MEM => 0x40

/-- The fifteen enumerators, in declaration order. -/
def all : List BoardInstruction :=
  [START, WOT_U_DO, STOP, CONTINUE, RESET, FR_WRITE, FR_READ, BP_WRITE, BP_READ,
   BP_SET, BP_GET, GET_REG, SET_REG, GET_MEM, SET_MEM]

/-- Modelled from the spec: the Wire Codec's conversion from an opcode byte to
a `BoardInstruction`, for which the repository has no code (the header only
declares the enumeration).  Section 9 asks for an explicit, exhaustive
conversion with no silent default case; a byte that is no opcode is the decode
error `UnknownOpcode` of section 7. -/
def decode (b : Nat) : Except DecodeError BoardInstruction :=
  if b = 0xB0 then .ok START
  else if b = 0x20 then .ok WOT_U_DO
  else if b = 0x21 then .ok STOP
  else if b = 0x23 then .ok CONTINUE
  else if b = 0x04 then .ok RESET
  else if b = 0x12 then .ok FR_WRITE
  else if b = 0x13 then .ok FR_READ
  else if b = 0x30 then .ok BP_WRITE
  else if b = 0x31 then .ok BP_READ
  else if b = 0x32 then .ok BP_SET
  else if b = 0x33 then .ok BP_GET
  else if b = 0x5A then .ok GET_REG
  else if b = 0x52 then .ok SET_REG
  else if b = 0x4A then .ok GET_MEM
  else if b = 0x40 then .ok SET_MEM
  else .error .UnknownOpcode

end BoardInstruction

/-! ## The bit-or helpers -/

/-- The helper `operator|(ClientState l, unsigned char r)`:
`return static_cast<unsigned char>(l) | r;`.  The operands are promoted to
`int`, or-ed, and the result is converted to the return type `unsigned char`,
i.e. taken modulo `2 ^ 8`. -/
def ClientState.or (l : ClientState) (r : Nat) : Nat :=
  (l.toByte ||| r) % 2 ^ 8

/-- The helper `operator|(BoardInstruction l, unsigned char r)`:
`return static_cast<unsigned char>(l) | r;`, converted to the return type
`unsigned char` as for `ClientState`. -/
def BoardInstruction.or (l : BoardInstruction) (r : Nat) : Nat :=
  (l.encode ||| r) % 2 ^ 8

/-! ## `BreakpointInfo` -/

/-- Modelled from the spec: the width in bytes of `unsigned int`, the type of
`BreakpointInfo::misc`, which the header does not fix; section 3 calls the
field a 32-bit field and the record layout of section 6 gives it 4 bytes. -/
def UNSIGNED_INT_WIDTH : Nat := 4

/-- The information read from Jimulator about a given breakpoint
(`class BreakpointInfo`).  The default values are the default member
initialisers of the class; `addressA` has none, so a record is constructed
from whatever its `addressA` holds.  `= {0}` on an array of 8 zeroes all 8
elements. -/
structure BreakpointInfo where
  addressA : List Nat
  addressB : List Nat := [0xFF, 0xFF, 0xFF, 0xFF]
  dataA : List Nat := [0, 0, 0, 0, 0, 0, 0, 0]
  dataB : List Nat := [0, 0, 0, 0, 0, 0, 0, 0]
  misc : Nat := 0xFFFFFFFF
  deriving DecidableEq, Repr

namespace BreakpointInfo

/-- A record as constructed: `BreakpointInfo bp;` with `indeterminate` the
content of the uninitialised member `addressA`. -/
def construct (indeterminate : List Nat) : BreakpointInfo :=
  { addressA := indeterminate }

/-- Writing a primary address into `addressA`, the only member KoMo2 mutates. -/
def writeAddressA (bp : BreakpointInfo) (address : List Nat) : BreakpointInfo :=
  { bp with addressA := address }

/-- The members of `BreakpointInfo` in declaration order, each with its width
in bytes as declared: `unsigned char addressA[ADDRESS_BUS_WIDTH]`,
`unsigned char addressB[ADDRESS_BUS_WIDTH]`, `unsigned char dataA[8]`,
`unsigned char dataB[8]`, `unsigned int misc`. -/
def fieldWidths : List (String × Nat) :=
  [("addressA", ADDRESS_BUS_WIDTH), ("addressB", ADDRESS_BUS_WIDTH),
   ("dataA", 8), ("dataB", 8), ("misc", UNSIGNED_INT_WIDTH)]

/-- The sum of the field widths of `BreakpointInfo`. -/
def recordSize : Nat := (fieldWidths.map Prod.snd).sum

end BreakpointInfo

/-! ## Breakpoint table -/

/-- Modelled from the spec: the reset/disabled sentinel of a slot's primary
address, which section 9 describes as the all-ones address `0xFFFFFFFF`. -/
def DISABLED_SENTINEL : Nat := 0xFFFFFFFF

/-- Modelled from the spec: the breakpoint table of section 4.5, one primary
address per slot (the legacy fields of a slot are constants and the byte order
of the address on the wire plays no part in the table's logic). -/
abbrev BreakpointTable := List Nat

namespace BreakpointTable

/-- Modelled from the spec: a slot is armed iff its primary address differs
from the disabled sentinel (section 3); every address `setBreakpoint` stores is
transmitted in the same call, so transmission is not tracked separately. -/
def armed (slot : Nat) : Bool := slot != DISABLED_SENTINEL

/-- The number of armed slots of `t` whose address is `address`. -/
def armedCount (t : BreakpointTable) (address : Nat) : Nat :=
  t.countP (fun slot => armed slot && slot == address)

/-- Store `new` in the first slot whose stored address equals `old`. -/
def storeInFirst (old new : Nat) : BreakpointTable → BreakpointTable
  | [] => []
  | slot :: rest => if slot = old then new :: rest else slot :: storeInFirst old new rest

end BreakpointTable

/-- Modelled from the spec: `Jimulator::setBreakpoint`, declared in
`jimulatorInterface.h` with its body in `jimulatorInterface.cpp`.  Section 4.5:
if the address is already armed in some slot, that slot is cleared back to the
sentinel (toggle-off); otherwise the address goes into the first slot whose
stored address equals the disabled sentinel; `false` if no free slot exists and
the address was not already present.  Section 9: the sentinel itself is a
reserved address and is rejected.  The result is the returned boolean and the
table afterwards. -/
def setBreakpoint (t : BreakpointTable) (address : Nat) : Bool × BreakpointTable :=
  if address = DISABLED_SENTINEL then (false, t)
  else if address ∈ t then (true, BreakpointTable.storeInFirst address DISABLED_SENTINEL t)
  else if DISABLED_SENTINEL ∈ t then
    (true, BreakpointTable.storeInFirst DISABLED_SENTINEL address t)
  else (false, t)

/-! ## Terminal key handling (`TerminalModel.cpp`) -/

/-- GDK key symbol `GDK_KEY_Tab` (`gdk/gdkkeysyms.h`). -/
def GDK_KEY_Tab : Nat := 0xff09
/-- GDK key symbol `GDK_KEY_Escape` (`gdk/gdkkeysyms.h`). -/
def GDK_KEY_Escape : Nat := 0xff1b
/-- GDK key symbol `GDK_KEY_Left` (`gdk/gdkkeysyms.h`). -/
def GDK_KEY_Left : Nat := 0xff51
/-- GDK key symbol `GDK_KEY_Up` (`gdk/gdkkeysyms.h`). -/
def GDK_KEY_Up : Nat := 0xff52
/-- GDK key symbol `GDK_KEY_Right` (`gdk/gdkkeysyms.h`). -/
def GDK_KEY_Right : Nat := 0xff53
/-- GDK key symbol `GDK_KEY_Down` (`gdk/gdkkeysyms.h`). -/
def GDK_KEY_Down : Nat := 0xff54

/-- The field of `GdkEventKey` the handler reads. -/
structure GdkEventKey where
  keyval : Nat
  deriving DecidableEq, Repr

/-- What `TerminalModel::handleKeyPress` does to the rest of the program:
`getView()->getClearButton()->grab_focus()`,
`getView()->getTextView()->get_parent()->grab_focus()` and
`Jimulator::sendTerminalInputToJimulator(val)`. -/
inductive TerminalAction where
  | grabFocusClearButton
  | grabFocusScrollView
  | sendTerminalInput (val : Nat)
  deriving DecidableEq, Repr

/-- The handler `TerminalModel::handleKeyPress`.  `sendTerminalInputToJimulator` gives the
boolean the call of `Jimulator::sendTerminalInputToJimulator` returns,
`isFocused` is `getView()->isFocused()`.  The result is the returned boolean
and the actions performed, in order. -/
def handleKeyPress (sendTerminalInputToJimulator : Nat → Bool) (isFocused : Bool)
    (e : GdkEventKey) : Bool × List TerminalAction :=
  if !isFocused then (false, [])
  else if e.keyval = GDK_KEY_Tab ∨ e.keyval = GDK_KEY_Right then
    (true, [.grabFocusClearButton])
  else if e.keyval = GDK_KEY_Escape ∨ e.keyval = GDK_KEY_Up then
    (true, [.grabFocusScrollView])
  else (sendTerminalInputToJimulator e.keyval, [.sendTerminalInput e.keyval])

/-- The values passed to `sendTerminalInputToJimulator` in a list of actions. -/
def sendCalls : List TerminalAction → List Nat
  | [] => []
  | .sendTerminalInput val :: rest => val :: sendCalls rest
  | _ :: rest => sendCalls rest

/-- The focus changes in a list of actions. -/
def focusMoves : List TerminalAction → List TerminalAction
  | [] => []
  | .sendTerminalInput _ :: rest => focusMoves rest
  | a :: rest => a :: focusMoves rest

/-- The keys `handleKeyPress` uses to move focus: Tab, Right, Escape, Up. -/
def focusKeys : List Nat :=
  [GDK_KEY_Tab, GDK_KEY_Right, GDK_KEY_Escape, GDK_KEY_Up]

/-! ## Memory and register windows -/

/-- The information of a single row of a memory window, as read from Jimulator
(`class Jimulator::MemoryValues`). -/
structure MemoryValues where
  address : Nat
  hex : String
  disassembly : String
  breakpoint : Bool := false
  deriving DecidableEq, Repr

/-- A `std::array<T, N>`: a sequence whose type fixes its number of elements. -/
abbrev StdArray (α : Type) (n : Nat) := { xs : List α // xs.length = n }

/-- Modelled from the spec: what the reader of section 4.4 consults, whose code
is in `jimulatorInterface.cpp`: the word the board returns for a `GetMem` of an
address, the words of the register block a `GetReg` returns, the rendering of
a word as a hexadecimal string, the offset of a row from the start address,
the Source Model's `findLineByAddress` and the Breakpoint Table. -/
structure Board where
  memoryWord : Nat → Nat
  registerWord : Nat → Nat
  renderHex : Nat → String
  rowOffset : Nat → Nat
  findLineByAddress : Nat → Option String
  breakpoints : BreakpointTable

/-- Modelled from the spec: `Jimulator::getJimulatorMemoryValues`, declared in
`jimulatorInterface.h` as returning `std::array<Jimulator::MemoryValues, 13>`,
with its body in `jimulatorInterface.cpp`.  Section 4.4: one row per window
position; the word is decoded into hex, `disassembly` is the Source Model's
line at `startAddress + offset` (the empty string if there is none) and
`breakpoint` is Breakpoint Table membership of that address.  Addresses are
`uint32_t`. -/
def getJimulatorMemoryValues (board : Board) (s_address_int : Nat) : List MemoryValues :=
  (List.range 13).map fun row =>
    let address := (s_address_int + board.rowOffset row) % 2 ^ 32
    { address := address
      hex := board.renderHex (board.memoryWord address)
      disassembly := (board.findLineByAddress address).getD ""
      breakpoint := decide (0 < BreakpointTable.armedCount board.breakpoints address) }

/-- Modelled from the spec: `Jimulator::getJimulatorRegisterValues`, declared in
`jimulatorInterface.h` as returning `std::array<std::string, 16>`, with its
body in `jimulatorInterface.cpp`.  Section 4.4: the block is decoded into 16
register words, each rendered as a hexadecimal string. -/
def getJimulatorRegisterValues (board : Board) : List String :=
  (List.range 16).map fun register => board.renderHex (board.registerWord register)

/-- The content of a `DisassemblyRows`: the breakpoint toggle and the three
labels (`DisassemblyView.h`). -/
structure DisassemblyRows where
  breakpoint : Bool := false
  address : String := ""
  hex : String := ""
  disassembly : String := ""
  deriving DecidableEq, Repr

/-- The rows of a `DisassemblyView`, with the member initialiser of the class:
`std::vector<DisassemblyRows> rows{std::vector<DisassemblyRows>(15)}`. -/
structure DisassemblyView where
  rows : List DisassemblyRows := List.replicate 15 {}
  deriving DecidableEq, Repr

namespace DisassemblyView

/-- The type of the argument of `DisassemblyView::refreshViews`:
`std::array<MemoryValues, 15>`. -/
abbrev RefreshViewsArg := StdArray MemoryValues 15

/-- The view as constructed, `getRows()` being its `rows`. -/
def construct : DisassemblyView := {}

end DisassemblyView

/-! ## Properties: board state and opcodes -/

/-- C1: decoding a poll reply byte maps `0x44` to `FINISHED` and `0x80` to
`RUNNING`, and maps the wire byte of each of the nine `ClientState` values
(`0x00, 0x01, 0x41, 0x43, 0x44, 0x80, 0x81, 0x82, 0x30`) back to that state. -/
theorem checkBoardState_decodes_wire_bytes :
    checkBoardState (.ok 0x44) = .ok .FINISHED ∧
    checkBoardState (.ok 0x80) = .ok .RUNNING ∧
    ClientState.all.map ClientState.toByte
      = [0x00, 0x01, 0x41, 0x43, 0x44, 0x80, 0x81, 0x82, 0x30] ∧
    (∀ s : ClientState, s ∈ ClientState.all) ∧
    (∀ s : ClientState, ClientState.decode s.toByte = .ok s) ∧
    (∀ s : ClientState, checkBoardState (.ok s.toByte) = .ok s) := by
  refine ⟨rfl, rfl, rfl, ?_, ?_, ?_⟩ <;> intro s <;> cases s <;>
    first | rfl | simp [ClientState.all]

/-- C2: a poll reply byte that is not the wire value of one of the nine
`ClientState` values fails to decode, with a decode error; a reply decodes to
`NORMAL` exactly when it is the byte `0x00`, and a reply that did not arrive
is the channel's error, not a state. -/
theorem checkBoardState_unrecognised_byte (b : Nat)
    (h : ∀ s : ClientState, s.toByte ≠ b) :
    ClientState.decode b = .error .UnknownOpcode ∧
    checkBoardState (.ok b) = .error (.decode .UnknownOpcode) ∧
    (∀ c : Nat, checkBoardState (.ok c) = .ok .NORMAL ↔ c = 0x00) ∧
    (∀ e : ChannelError, checkBoardState (.error e) = .error (.channel e)) := by
  have h0 := h .NORMAL
  have h1 := h .BUSY
  have h2 := h .BREAKPOINT
  have h3 := h .MEMFAULT
  have h4 := h .FINISHED
  have h5 := h .RUNNING
  have h6 := h .RUNNING_SWI
  have h7 := h .STEPPING
  have h8 := h .BROKEN
  simp only [ClientState.toByte, ne_eq] at h0 h1 h2 h3 h4 h5 h6 h7 h8
  have hd : ClientState.decode b = .error .UnknownOpcode := by
    unfold ClientState.decode
    rw [if_neg (Ne.symm h0), if_neg (Ne.symm h1), if_neg (Ne.symm h2), if_neg (Ne.symm h3),
      if_neg (Ne.symm h4), if_neg (Ne.symm h5), if_neg (Ne.symm h6), if_neg (Ne.symm h7),
      if_neg (Ne.symm h8)]
  refine ⟨hd, ?_, ?_, ?_⟩
  · simp only [checkBoardState, hd]
  · intro c
    constructor
    · intro hc
      by_contra hne
      simp only [checkBoardState, ClientState.decode, if_neg hne] at hc
      split_ifs at hc <;> simp at hc
    · rintro rfl
      rfl
  · intro e
    rfl

/-- Witness of C2 at the byte `0x99`, which is no `ClientState` value. -/
theorem checkBoardState_unrecognised_byte_witness :
    (∀ s : ClientState, s.toByte ≠ 0x99) ∧
    ClientState.decode 0x99 = .error .UnknownOpcode ∧
    checkBoardState (.ok 0x99) = .error (.decode .UnknownOpcode) :=
  have h : ∀ s : ClientState, s.toByte ≠ 0x99 := by
    intro s; cases s <;> decide
  ⟨h, (checkBoardState_unrecognised_byte 0x99 h).1,
    (checkBoardState_unrecognised_byte 0x99 h).2.1⟩

/-- C3: for every `BoardInstruction` opcode, decoding its encoding gives the
opcode back; the fifteen opcodes are encoded as pairwise distinct single
bytes, so the byte on the wire identifies exactly one opcode. -/
theorem boardInstruction_roundtrip :
    (∀ op : BoardInstruction, BoardInstruction.decode op.encode = .ok op) ∧
    (∀ a b : BoardInstruction, a.encode = b.encode ↔ a = b) ∧
    (∀ op : BoardInstruction, op.encode < 256) ∧
    BoardInstruction.all.length = 15 ∧
    (∀ op : BoardInstruction, op ∈ BoardInstruction.all) ∧
    (BoardInstruction.all.map BoardInstruction.encode).Nodup := by
  refine ⟨?_, ?_, ?_, rfl, ?_, by decide⟩
  · intro op; cases op <;> rfl
  · intro a b
    constructor
    · cases a <;> cases b <;> simp [BoardInstruction.encode]
    · rintro rfl; rfl
  · intro op; cases op <;> decide
  · intro op; cases op <;> simp [BoardInstruction.all]

/-! ## Properties: breakpoint record -/

/-- C4 (counterexample): the field widths of `BreakpointInfo` do not sum to 32
bytes: the five fields are 4, 4, 8, 8 and 4 bytes wide. -/
theorem breakpointInfo_recordSize_ne_32 : BreakpointInfo.recordSize ≠ 32 := by
  decide

/-- C4 (amended): the breakpoint record is 28 bytes in total, made up of these
fields in order: a 4-byte `addressA`, a 4-byte `addressB`, an 8-byte `dataA`,
an 8-byte `dataB` and a 4-byte `misc`; a record as constructed holds that
many bytes in each legacy field. -/
theorem breakpointInfo_recordSize :
    BreakpointInfo.fieldWidths
      = [("addressA", 4), ("addressB", 4), ("dataA", 8), ("dataB", 8), ("misc", 4)] ∧
    BreakpointInfo.recordSize = 28 ∧
    (∀ g : List Nat,
      (BreakpointInfo.construct g).addressB.length = 4 ∧
      (BreakpointInfo.construct g).dataA.length = 8 ∧
      (BreakpointInfo.construct g).dataB.length = 8 ∧
      (BreakpointInfo.construct g).misc < 2 ^ (8 * 4)) := by
  refine ⟨rfl, rfl, ?_⟩
  intro g
  refine ⟨rfl, rfl, rfl, ?_⟩
  simp [BreakpointInfo.construct]

/-- C5: every `BreakpointInfo` record has, as constructed, `addressB` =
`FF FF FF FF`, `dataA` and `dataB` eight zero bytes each and `misc` =
`0xFFFFFFFF`, and writing any primary address into `addressA` leaves these
four legacy fields unchanged: only the primary address field varies. -/
theorem breakpointInfo_legacy_fields (indeterminate address : List Nat) :
    (BreakpointInfo.construct indeterminate).addressB = [0xFF, 0xFF, 0xFF, 0xFF] ∧
    (BreakpointInfo.construct indeterminate).dataA = [0, 0, 0, 0, 0, 0, 0, 0] ∧
    (BreakpointInfo.construct indeterminate).dataB = [0, 0, 0, 0, 0, 0, 0, 0] ∧
    (BreakpointInfo.construct indeterminate).misc = 0xFFFFFFFF ∧
    ((BreakpointInfo.construct indeterminate).writeAddressA address).addressA = address ∧
    ((BreakpointInfo.construct indeterminate).writeAddressA address).addressB
      = (BreakpointInfo.construct indeterminate).addressB ∧
    ((BreakpointInfo.construct indeterminate).writeAddressA address).dataA
      = (BreakpointInfo.construct indeterminate).dataA ∧
    ((BreakpointInfo.construct indeterminate).writeAddressA address).dataB
      = (BreakpointInfo.construct indeterminate).dataB ∧
    ((BreakpointInfo.construct indeterminate).writeAddressA address).misc
      = (BreakpointInfo.construct indeterminate).misc ∧
    (BreakpointInfo.construct indeterminate).writeAddressA address
      = BreakpointInfo.construct address :=
  ⟨rfl, rfl, rfl, rfl, rfl, rfl, rfl, rfl, rfl, rfl⟩

/-! ## Properties: breakpoint table -/

namespace BreakpointTable

theorem length_storeInFirst (old new : Nat) (t : BreakpointTable) :
    (storeInFirst old new t).length = t.length := by
  induction t with
  | nil => rfl
  | cons slot rest ih =>
    by_cases hs : slot = old
    · simp [storeInFirst, hs]
    · simp [storeInFirst, hs, ih]

theorem storeInFirst_of_not_mem (old new : Nat) (t : BreakpointTable) (h : old ∉ t) :
    storeInFirst old new t = t := by
  induction t with
  | nil => rfl
  | cons slot rest ih =>
    have hs : slot ≠ old := fun e => h (by simp [e])
    have hr : old ∉ rest := fun m => h (List.mem_cons_of_mem _ m)
    simp [storeInFirst, hs, ih hr]

theorem mem_storeInFirst (old new : Nat) (t : BreakpointTable) (h : old ∈ t) :
    new ∈ storeInFirst old new t := by
  induction t with
  | nil => simp at h
  | cons slot rest ih =>
    by_cases hs : slot = old
    · simp [storeInFirst, hs]
    · have hr : old ∈ rest := by
        rcases List.mem_cons.mp h with e | m
        · exact absurd e.symm hs
        · exact m
      simp [storeInFirst, hs, ih hr]

theorem storeInFirst_undo (old new : Nat) (t : BreakpointTable) (h : new ∉ t) :
    storeInFirst new old (storeInFirst old new t) = t := by
  induction t with
  | nil => rfl
  | cons slot rest ih =>
    have hn : slot ≠ new := fun e => h (by simp [e])
    have hr : new ∉ rest := fun m => h (List.mem_cons_of_mem _ m)
    by_cases hs : slot = old
    · simp [storeInFirst, hs]
    · simp [storeInFirst, hs, hn, ih hr]

theorem armedCount_eq_zero_of_not_mem (t : BreakpointTable) (address : Nat)
    (h : address ∉ t) : armedCount t address = 0 := by
  unfold armedCount
  rw [List.countP_eq_zero]
  intro slot hslot hp
  simp only [Bool.and_eq_true, beq_iff_eq] at hp
  exact h (hp.2 ▸ hslot)

theorem not_mem_of_armedCount_eq_zero (t : BreakpointTable) (address : Nat)
    (hne : address ≠ DISABLED_SENTINEL) (h : armedCount t address = 0) : address ∉ t := by
  unfold armedCount at h
  rw [List.countP_eq_zero] at h
  intro hmem
  apply h address hmem
  simp [armed, hne]

theorem armedCount_storeInFirst_sentinel (t : BreakpointTable) (address : Nat)
    (hne : address ≠ DISABLED_SENTINEL) (hfree : DISABLED_SENTINEL ∈ t)
    (h : address ∉ t) :
    armedCount (storeInFirst DISABLED_SENTINEL address t) address = 1 := by
  induction t with
  | nil => simp at hfree
  | cons slot rest ih =>
    have hn : slot ≠ address := fun e => h (by simp [e])
    have hr : address ∉ rest := fun m => h (List.mem_cons_of_mem _ m)
    by_cases hs : slot = DISABLED_SENTINEL
    · have h0 := armedCount_eq_zero_of_not_mem rest address hr
      have hst : storeInFirst DISABLED_SENTINEL address (slot :: rest) = address :: rest := by
        simp [storeInFirst, hs]
      have hp : (armed address && address == address) = true := by
        simp [armed, hne]
      unfold armedCount at h0 ⊢
      rw [hst, List.countP_cons, h0]
      simp only [hp, if_true]
    · have hfr : DISABLED_SENTINEL ∈ rest := by
        rcases List.mem_cons.mp hfree with e | m
        · exact absurd e.symm hs
        · exact m
      have ih1 := ih hfr hr
      unfold armedCount at ih1 ⊢
      simp [storeInFirst, hs, List.countP_cons, hn, ih1]

end BreakpointTable

/-- C6: for every breakpoint table and every address not armed in it, if
`setBreakpoint` succeeds then afterwards exactly one armed slot holds the
address; calling `setBreakpoint` with the address a second time succeeds and
clears that slot, so that no slot is armed with it and the table is the one
before the first call. -/
theorem setBreakpoint_toggles (t : BreakpointTable) (address : Nat)
    (hnot : BreakpointTable.armedCount t address = 0)
    (hok : (setBreakpoint t address).1 = true) :
    BreakpointTable.armedCount (setBreakpoint t address).2 address = 1 ∧
    (setBreakpoint t address).2.length = t.length ∧
    (setBreakpoint (setBreakpoint t address).2 address).1 = true ∧
    BreakpointTable.armedCount (setBreakpoint (setBreakpoint t address).2 address).2 address
      = 0 ∧
    (setBreakpoint (setBreakpoint t address).2 address).2 = t := by
  by_cases hne : address = DISABLED_SENTINEL
  · simp [setBreakpoint, hne] at hok
  · have hmem : address ∉ t :=
      BreakpointTable.not_mem_of_armedCount_eq_zero t address hne hnot
    by_cases hfree : DISABLED_SENTINEL ∈ t
    · have h1 : setBreakpoint t address
          = (true, BreakpointTable.storeInFirst DISABLED_SENTINEL address t) := by
        simp [setBreakpoint, hne, hmem, hfree]
      have hin : address ∈ BreakpointTable.storeInFirst DISABLED_SENTINEL address t :=
        BreakpointTable.mem_storeInFirst _ _ t hfree
      have h2 : setBreakpoint (BreakpointTable.storeInFirst DISABLED_SENTINEL address t) address
          = (true, t) := by
        simp [setBreakpoint, hne, hin, BreakpointTable.storeInFirst_undo _ _ t hmem]
      rw [h1]
      simp only [h2]
      exact ⟨BreakpointTable.armedCount_storeInFirst_sentinel t address hne hfree hmem,
        BreakpointTable.length_storeInFirst _ _ t, trivial, hnot, trivial⟩
    · simp [setBreakpoint, hne, hmem, hfree] at hok

/-- Witness of C6: arming `0x8000` in the table of 32 disabled slots. -/
theorem setBreakpoint_toggles_witness :
    BreakpointTable.armedCount (List.replicate 32 DISABLED_SENTINEL) 0x8000 = 0 ∧
    (setBreakpoint (List.replicate 32 DISABLED_SENTINEL) 0x8000).1 = true ∧
    BreakpointTable.armedCount
      (setBreakpoint (List.replicate 32 DISABLED_SENTINEL) 0x8000).2 0x8000 = 1 ∧
    (setBreakpoint (setBreakpoint (List.replicate 32 DISABLED_SENTINEL) 0x8000).2 0x8000).2
      = List.replicate 32 DISABLED_SENTINEL :=
  have h := setBreakpoint_toggles (List.replicate 32 DISABLED_SENTINEL) 0x8000
    (by decide) (by decide)
  ⟨by decide, by decide, h.1, h.2.2.2.2⟩

/-- C7: when all `MAX_NUMBER_OF_BREAKPOINTS` (32) slots of the table are armed
with distinct addresses, `setBreakpoint` of an address not present in the
table returns `false` and leaves the table unchanged. -/
theorem setBreakpoint_table_full (t : BreakpointTable) (address : Nat)
    (_hlen : t.length = MAX_NUMBER_OF_BREAKPOINTS)
    (harmed : ∀ slot ∈ t, BreakpointTable.armed slot = true)
    (_hdistinct : t.Nodup)
    (habsent : address ∉ t) :
    (setBreakpoint t address).1 = false ∧ (setBreakpoint t address).2 = t := by
  have hfree : DISABLED_SENTINEL ∉ t := by
    intro hmem
    have := harmed _ hmem
    simp [BreakpointTable.armed] at this
  by_cases hne : address = DISABLED_SENTINEL
  · simp [setBreakpoint, hne]
  · simp [setBreakpoint, hne, habsent, hfree]

/-- Witness of C7: the table armed with `0x8000, 0x8004, ..., 0x807C` refuses
`0x9000`. -/
theorem setBreakpoint_table_full_witness :
    ((List.range 32).map fun i => 0x8000 + 4 * i).length = MAX_NUMBER_OF_BREAKPOINTS ∧
    (setBreakpoint ((List.range 32).map fun i => 0x8000 + 4 * i) 0x9000).1 = false ∧
    (setBreakpoint ((List.range 32).map fun i => 0x8000 + 4 * i) 0x9000).2
      = (List.range 32).map fun i => 0x8000 + 4 * i :=
  ⟨by decide,
    setBreakpoint_table_full ((List.range 32).map fun i => 0x8000 + 4 * i) 0x9000
      (by decide) (by decide) (by decide) (by decide)⟩

/-! ## Properties: terminal key handling -/

/-- C8 (counterexample): `handleKeyPress` does not keep every navigation key
(Tab, Escape, Left, Right, Up, Down) from `sendTerminalInputToJimulator`: the
Left arrow, received while the terminal view is focused, is passed on. -/
theorem handleKeyPress_navigationKeys_not_filtered :
    ¬ (∀ (send : Nat → Bool) (isFocused : Bool) (e : GdkEventKey),
        e.keyval ∈ [GDK_KEY_Tab, GDK_KEY_Escape, GDK_KEY_Left, GDK_KEY_Right, GDK_KEY_Up,
          GDK_KEY_Down] →
        sendCalls (handleKeyPress send isFocused e).2 = []) := by
  intro h
  have hleft := h (fun _ => true) true ⟨GDK_KEY_Left⟩ (by decide)
  revert hleft
  decide

/-- C8 (amended): for every key event whose key value is Tab, Right, Escape or
Up, `handleKeyPress` makes no call to `sendTerminalInputToJimulator`; the Left
and Down arrows are not among the filtered keys: received while the view is
focused they are passed to `sendTerminalInputToJimulator`. -/
theorem handleKeyPress_filters_focusKeys (send : Nat → Bool) (isFocused : Bool)
    (e : GdkEventKey) (h : e.keyval ∈ focusKeys) :
    sendCalls (handleKeyPress send isFocused e).2 = [] ∧
    sendCalls (handleKeyPress send true ⟨GDK_KEY_Left⟩).2 = [GDK_KEY_Left] ∧
    sendCalls (handleKeyPress send true ⟨GDK_KEY_Down⟩).2 = [GDK_KEY_Down] := by
  refine ⟨?_, rfl, rfl⟩
  simp only [focusKeys, List.mem_cons, List.mem_singleton, List.not_mem_nil, or_false] at h
  cases isFocused
  · rfl
  · rcases h with h | h | h | h <;> simp [handleKeyPress, h, sendCalls]

/-- Witness of C8 (amended): the Tab key, received while focused. -/
theorem handleKeyPress_filters_focusKeys_witness :
    GDK_KEY_Tab ∈ focusKeys ∧
    sendCalls (handleKeyPress (fun _ => true) true ⟨GDK_KEY_Tab⟩).2 = [] :=
  ⟨by decide,
    (handleKeyPress_filters_focusKeys (fun _ => true) true ⟨GDK_KEY_Tab⟩ (by decide)).1⟩

/-- C9: for every key event received while the terminal view is focused whose
key value is none of Tab, Right, Escape, Up, `handleKeyPress` calls
`sendTerminalInputToJimulator` exactly once, with the event's key value
unchanged, moves no focus, and returns the boolean that call returned. -/
theorem handleKeyPress_forwards_key (send : Nat → Bool) (e : GdkEventKey)
    (h : e.keyval ∉ focusKeys) :
    handleKeyPress send true e = (send e.keyval, [.sendTerminalInput e.keyval]) ∧
    sendCalls (handleKeyPress send true e).2 = [e.keyval] ∧
    focusMoves (handleKeyPress send true e).2 = [] ∧
    (handleKeyPress send true e).1 = send e.keyval := by
  simp only [focusKeys, List.mem_cons, List.mem_singleton, List.not_mem_nil, or_false,
    not_or] at h
  obtain ⟨h1, h2, h3, h4⟩ := h
  have hk : handleKeyPress send true e = (send e.keyval, [.sendTerminalInput e.keyval]) := by
    simp [handleKeyPress, h1, h2, h3, h4]
  rw [hk]
  exact ⟨rfl, rfl, rfl, rfl⟩

/-- Witness of C9: the key `a` (`0x61`) while focused, with a write that fails. -/
theorem handleKeyPress_forwards_key_witness :
    (0x61 : Nat) ∉ focusKeys ∧
    handleKeyPress (fun _ => false) true ⟨0x61⟩ = (false, [.sendTerminalInput 0x61]) :=
  ⟨by decide, (handleKeyPress_forwards_key (fun _ => false) ⟨0x61⟩ (by decide)).1⟩

/-! ## Properties: window sizes -/

/-- C10: the window sizes are fixed and do not depend on the start address:
for every start address `getJimulatorMemoryValues` returns exactly 13 rows,
the disassembly view holds exactly 15 rows and `refreshViews` takes exactly 15
rows, and `getJimulatorRegisterValues` returns exactly 16 register strings. -/
theorem window_sizes_fixed (board : Board) (s_address_int : Nat) :
    (getJimulatorMemoryValues board s_address_int).length = 13 ∧
    DisassemblyView.construct.rows.length = 15 ∧
    (∀ vals : DisassemblyView.RefreshViewsArg, vals.val.length = 15) ∧
    (getJimulatorRegisterValues board).length = 16 := by
  refine ⟨?_, rfl, fun vals => vals.property, ?_⟩
  · simp [getJimulatorMemoryValues]
  · simp [getJimulatorRegisterValues]

/-! ## Properties: focus handling of the key handler -/

/-- C11: `handleKeyPress` returns true only if the key press was handled: for
every key event received while the terminal view is not focused it returns
false and performs no action at all; for every key event received while
focused with key Tab or Right it moves focus to the clear button and returns
true, and with key Escape or Up it moves focus to the scroll view and returns
true; whenever it returns true the view was focused and it either moved focus
or made a call of `sendTerminalInputToJimulator` that returned true. -/
theorem handleKeyPress_handled (send : Nat → Bool) (e : GdkEventKey) :
    handleKeyPress send false e = (false, []) ∧
    (e.keyval = GDK_KEY_Tab ∨ e.keyval = GDK_KEY_Right →
      handleKeyPress send true e = (true, [.grabFocusClearButton])) ∧
    (e.keyval = GDK_KEY_Escape ∨ e.keyval = GDK_KEY_Up →
      handleKeyPress send true e = (true, [.grabFocusScrollView])) ∧
    (∀ isFocused : Bool, (handleKeyPress send isFocused e).1 = true →
      isFocused = true ∧
      ((handleKeyPress send isFocused e).2 = [.grabFocusClearButton] ∨
       (handleKeyPress send isFocused e).2 = [.grabFocusScrollView] ∨
       ((handleKeyPress send isFocused e).2 = [.sendTerminalInput e.keyval] ∧
        send e.keyval = true))) := by
  refine ⟨rfl, ?_, ?_, ?_⟩
  · intro h
    simp [handleKeyPress, h]
  · intro h
    have hn : ¬ (e.keyval = GDK_KEY_Tab ∨ e.keyval = GDK_KEY_Right) := by
      rcases h with h | h <;> rw [h] <;> decide
    simp [handleKeyPress, h, hn]
  · intro isFocused hret
    cases isFocused
    · simp [handleKeyPress] at hret
    · refine ⟨rfl, ?_⟩
      by_cases h1 : e.keyval = GDK_KEY_Tab ∨ e.keyval = GDK_KEY_Right
      · left
        simp [handleKeyPress, h1]
      · by_cases h2 : e.keyval = GDK_KEY_Escape ∨ e.keyval = GDK_KEY_Up
        · right; left
          simp [handleKeyPress, h1, h2]
        · right; right
          have hk : handleKeyPress send true e
              = (send e.keyval, [.sendTerminalInput e.keyval]) := by
            simp [handleKeyPress, h1, h2]
          rw [hk] at hret ⊢
          exact ⟨rfl, hret⟩

/-- Witness of C11: the Escape key, not focused and focused. -/
theorem handleKeyPress_handled_witness :
    handleKeyPress (fun _ => true) false ⟨GDK_KEY_Escape⟩ = (false, []) ∧
    handleKeyPress (fun _ => true) true ⟨GDK_KEY_Escape⟩ = (true, [.grabFocusScrollView]) :=
  ⟨(handleKeyPress_handled (fun _ => true) ⟨GDK_KEY_Escape⟩).1,
    (handleKeyPress_handled (fun _ => true) ⟨GDK_KEY_Escape⟩).2.2.1 (Or.inl rfl)⟩

/-! ## Properties: the bit-or helpers -/

theorem or_land_left (a b : Nat) : (a ||| b) &&& a = a := by
  apply Nat.eq_of_testBit_eq
  intro i
  rw [Nat.testBit_and, Nat.testBit_or]
  cases a.testBit i <;> cases b.testBit i <;> rfl

theorem lor_byte_lt (a b : Nat) (ha : a < 256) (hb : b < 256) : a ||| b < 256 :=
  Nat.or_lt_two_pow (n := 8) ha hb

theorem ClientState.toByte_lt (l : ClientState) : l.toByte < 256 := by
  cases l <;> decide

theorem BoardInstruction.encode_lt (l : BoardInstruction) : l.encode < 256 := by
  cases l <;> decide

/-- C12: for every `BoardInstruction` or `ClientState` value `l` and every
byte `r`, the helper `l | r` returns the 8-bit bitwise or of the wire byte of
`l` and `r`; hence `l | 0` is the wire byte of `l`, every bit set in the wire
byte of `l` is set in the result, and the result is in the range 0..255. -/
theorem or_helper_bitwise (r : Nat) (hr : r < 256) :
    (∀ l : ClientState,
      l.or r = l.toByte ||| r ∧ l.or 0 = l.toByte ∧
      (l.or r) &&& l.toByte = l.toByte ∧ l.or r < 256) ∧
    (∀ l : BoardInstruction,
      l.or r = l.encode ||| r ∧ l.or 0 = l.encode ∧
      (l.or r) &&& l.encode = l.encode ∧ l.or r < 256) := by
  constructor
  · intro l
    have hlt := lor_byte_lt l.toByte r l.toByte_lt hr
    have h : l.or r = l.toByte ||| r := Nat.mod_eq_of_lt hlt
    refine ⟨h, ?_, ?_, ?_⟩
    · cases l <;> rfl
    · rw [h]; exact or_land_left _ _
    · rw [h]; exact hlt
  · intro l
    have hlt := lor_byte_lt l.encode r l.encode_lt hr
    have h : l.or r = l.encode ||| r := Nat.mod_eq_of_lt hlt
    refine ⟨h, ?_, ?_, ?_⟩
    · cases l <;> rfl
    · rw [h]; exact or_land_left _ _
    · rw [h]; exact hlt

/-- Witness of C12: `RUNNING | 0x0F` is `0x8F` and `GET_MEM | 0x05` is `0x4F`. -/
theorem or_helper_bitwise_witness :
    (0x0F : Nat) < 256 ∧
    ClientState.or .RUNNING 0x0F = 0x8F ∧
    BoardInstruction.or .GET_MEM 0x0F = 0x4F :=
  ⟨by decide,
    (((or_helper_bitwise 0x0F (by decide)).1 .RUNNING).1).trans (by decide),
    (((or_helper_bitwise 0x0F (by decide)).2 .GET_MEM).1).trans (by decide)⟩

end KoMo2
